import Mathlib

/-!
Verification development for the agglayer certificate spammer's AggSender core
(src/aggsender/aggsender.go).  The Go code is shallowly embedded: pure functions
become Lean functions, storage and RPC collaborators become explicit oracle
parameters (values of type Except/functions into Except), machine integers
become Nat (all arithmetic in the embedded code is bounds-checked or small),
and byte slices become List Nat.  Helper types that live in the external CDK
library (certificate build params, status taxonomy, metadata codec) are
modelled from the specification's words and marked as such.
-/

namespace AggSpammer

/-- Modelled from the spec (section 3): the status taxonomy of a certificate.
Pending is open; Settled and InError are the closed statuses. -/
inductive CertStatus where
  | Pending : CertStatus
  | Settled : CertStatus
  | InError : CertStatus
deriving DecidableEq, Repr

/-- Modelled from the spec: closed means Settled or InError. -/
def CertStatus.IsClosed : CertStatus → Bool
  | .Settled => true
  | .InError => true
  | .Pending => false

/-- Modelled from the spec: the Settled predicate on statuses. -/
def CertStatus.IsSettled : CertStatus → Bool
  | .Settled => true
  | _ => false

/-- Modelled from the spec: the InError predicate on statuses. -/
def CertStatus.IsInError : CertStatus → Bool
  | .InError => true
  | _ => false

/-- Modelled from the spec: open is the negation of closed. -/
def CertStatus.IsOpen (s : CertStatus) : Bool := !s.IsClosed

/-- The well-known zero local exit root constant (var zeroLER in aggsender.go),
here read as a big-endian natural number. -/
def zeroLER : Nat :=
  0x27ae5ba08d7291c96c8cbddcc148bf48a6d68c7974b94356f53754ef6171d757

/-- The signatureSize constant of aggsender.go. -/
def signatureSize : Nat := 65

/-- The errNoBridgesAndClaims error text of aggsender.go. -/
def errNoBridgesAndClaims : String := "no bridges and claims to build certificate"

/-- Modelled from the spec: the decoded form of the certificate metadata hash
(the CDK CertificateMetadata record: version, FromBlock, Offset, CreatedAt and
the legacy ToBlock field).  The opaque 32-byte hash is represented directly by
its decoded record, since the bit-level codec lives outside this repository. -/
structure CertificateMetadata where
  Version : Nat
  FromBlock : Nat
  Offset : Nat
  CreatedAt : Nat
  ToBlock : Nat
deriving DecidableEq, Repr

/-- Modelled from the spec: NewCertificateMetadata builds a version-1 metadata
record from FromBlock, the block-count offset and CreatedAt. -/
def NewCertificateMetadata (fromBlock offset createdAt : Nat) : CertificateMetadata :=
  { Version := 1, FromBlock := fromBlock, Offset := offset,
    CreatedAt := createdAt, ToBlock := 0 }

/-- The persisted CertificateInfo record (CDK types.CertificateInfo as used by
aggsender.go).  Hashes are Nats; the raw signed certificate is kept as a
string as in the source. -/
structure CertificateInfo where
  Height : Nat
  RetryCount : Nat
  CertificateID : Nat
  NewLocalExitRoot : Nat
  PreviousLocalExitRoot : Option Nat
  FromBlock : Nat
  ToBlock : Nat
  Status : CertStatus
  CreatedAt : Nat
  UpdatedAt : Nat
  SignedCertificate : String
deriving DecidableEq, Repr

/-- CertificateInfo.IsClosed delegates to the status predicate. -/
def CertificateInfo.IsClosed (c : CertificateInfo) : Bool := c.Status.IsClosed

/-- The agglayer certificate header (agglayer.CertificateHeader) as consumed by
aggsender.go; the metadata hash is carried in decoded form. -/
structure CertHeader where
  Height : Nat
  CertificateID : Nat
  NewLocalExitRoot : Nat
  PreviousLocalExitRoot : Option Nat
  Status : CertStatus
  Metadata : CertificateMetadata
deriving DecidableEq, Repr

/-- A bridge event; only the fields the embedded code inspects are kept
(block number for range filtering, deposit count for the exit-root index). -/
structure Bridge where
  BlockNum : Nat
  DepositCount : Nat
deriving DecidableEq, Repr

/-- A claim event; only the block number is inspected by the embedded code. -/
structure Claim where
  BlockNum : Nat
deriving DecidableEq, Repr

/-- Modelled from the spec (section 3): CertificateBuildParams. -/
structure CertificateBuildParams where
  FromBlock : Nat
  ToBlock : Nat
  Bridges : List Bridge
  Claims : List Claim
  CreatedAt : Nat
deriving DecidableEq, Repr

/-- Number of bridge events in the params. -/
def CertificateBuildParams.NumberOfBridges (c : CertificateBuildParams) : Nat :=
  c.Bridges.length

/-- Number of claim events in the params. -/
def CertificateBuildParams.NumberOfClaims (c : CertificateBuildParams) : Nat :=
  c.Claims.length

/-- Modelled from the spec: the number of blocks spanned by the params
(FromBlock and ToBlock inclusive, under the invariant FromBlock <= ToBlock). -/
def CertificateBuildParams.NumberOfBlocks (c : CertificateBuildParams) : Nat :=
  c.ToBlock + 1 - c.FromBlock

/-- Modelled from the spec: EstimatedSize is a monotone-nondecreasing function
of content volume; modelled as an affine function of the numbers of bridge and
claim events, as in the CDK implementation. -/
def CertificateBuildParams.EstimatedSize (c : CertificateBuildParams) : Nat :=
  250 + 230 * c.NumberOfBridges + 8000 * c.NumberOfClaims

/-- Modelled from the spec: params are empty iff both Bridges and Claims are
empty. -/
def CertificateBuildParams.IsEmpty (c : CertificateBuildParams) : Bool :=
  c.Bridges.isEmpty && c.Claims.isEmpty

/-- Modelled from the spec (section 4.1 step 3): the max deposit index over the
bridges in range. -/
def CertificateBuildParams.MaxDepositCount (c : CertificateBuildParams) : Nat :=
  c.Bridges.foldl (fun acc b => max acc b.DepositCount) 0

/-- Modelled from the spec: Range(newFrom, newTo) re-filters Bridges and Claims
to the new sub-range; it fails when the requested range is not contained in the
current one, and returns the params unchanged when the range is unchanged. -/
def CertificateBuildParams.Range (c : CertificateBuildParams)
    (fromBlock toBlock : Nat) : Except String CertificateBuildParams :=
  if c.FromBlock = fromBlock ∧ c.ToBlock = toBlock then .ok c
  else if fromBlock < c.FromBlock ∨ c.ToBlock < toBlock then
    .error "invalid range"
  else
    .ok { FromBlock := fromBlock, ToBlock := toBlock,
          Bridges := c.Bridges.filter
            (fun b => decide (fromBlock ≤ b.BlockNum ∧ b.BlockNum ≤ toBlock)),
          Claims := c.Claims.filter
            (fun cl => decide (fromBlock ≤ cl.BlockNum ∧ cl.BlockNum ≤ toBlock)),
          CreatedAt := c.CreatedAt }

/-- The one-block cut used by the size governor: the params re-filtered to
the range FromBlock .. ToBlock-1. -/
def CertificateBuildParams.cutOf (c : CertificateBuildParams) : CertificateBuildParams :=
  { FromBlock := c.FromBlock, ToBlock := c.ToBlock - 1,
    Bridges := c.Bridges.filter
      (fun b => decide (c.FromBlock ≤ b.BlockNum ∧ b.BlockNum ≤ c.ToBlock - 1)),
    Claims := c.Claims.filter
      (fun cl => decide (c.FromBlock ≤ cl.BlockNum ∧ cl.BlockNum ≤ c.ToBlock - 1)),
    CreatedAt := c.CreatedAt }

/-- Big-endian interpretation of a byte slice as a natural number
(common.BytesToHash on a 32-byte slice; bytes are Nats taken mod 256). -/
def bytesToHash (bs : List Nat) : Nat :=
  bs.foldl (fun acc b => acc * 256 + b % 256) 0

/-- extractSignatureData of aggsender.go: checks the 65-byte length, then
splits the slice into R (bytes 0-31), S (bytes 32-63) and the parity of the
last byte. -/
def extractSignatureData (signature : List Nat) :
    Except String (Nat × Nat × Bool) :=
  if signature.length ≠ signatureSize then .error "invalid signature size"
  else
    .ok (bytesToHash (signature.take 32),
         bytesToHash ((signature.drop 32).take 32),
         signature.getD 64 0 % 2 == 1)

/-- getLastSentBlockAndRetryCount of aggsender.go. -/
def getLastSentBlockAndRetryCount (lastSentCertificateInfo : Option CertificateInfo) :
    Nat × Nat :=
  match lastSentCertificateInfo with
  | none => (0, 0)
  | some c =>
    if c.Status = .InError then
      (if 0 < c.FromBlock then c.FromBlock - 1 else c.ToBlock, c.RetryCount + 1)
    else (c.ToBlock, 0)

/-- getNextHeightAndPreviousLER of aggsender.go.  The storage lookup
GetCertificateByHeight is passed as an oracle. -/
def getNextHeightAndPreviousLER
    (lookup : Nat → Except String (Option CertificateInfo))
    (lastSentCertificateInfo : Option CertificateInfo) :
    Except String (Nat × Nat) :=
  match lastSentCertificateInfo with
  | none => .ok (0, zeroLER)
  | some c =>
    if !c.Status.IsClosed then
      .error "last certificate is not closed"
    else if c.Status.IsSettled then
      .ok (c.Height + 1, c.NewLocalExitRoot)
    else if c.Status.IsInError then
      match c.PreviousLocalExitRoot with
      | some p => .ok (c.Height, p)
      | none =>
        if c.Height = 0 then .ok (0, zeroLER)
        else
          match lookup (c.Height - 1) with
          | .error _ => .error "error getting last settled certificate"
          | .ok none => .error "none settled certificate"
          | .ok (some lastSettleCert) =>
            if !lastSettleCert.Status.IsSettled then
              .error "last settled certificate is not settled"
            else .ok (c.Height, lastSettleCert.NewLocalExitRoot)
    else .error "last certificate has an unknown status"

/-- Modelled from the spec (section 4.3), following its wording case by case:
no prior gives height 0 and the zero LER; a Settled prior gives height+1 and
its NewLocalExitRoot; an InError prior reuses its height with the recorded
PreviousLocalExitRoot, the zero LER at height 0, or the NewLocalExitRoot of
the Settled certificate one height below; a Pending prior is an error. -/
def heightLERResolutionSpec
    (lookup : Nat → Except String (Option CertificateInfo))
    (prior : Option CertificateInfo) : Except String (Nat × Nat) :=
  match prior with
  | none => .ok (0, zeroLER)
  | some p =>
    match p.Status with
    | .Pending => .error "prior certificate is still outstanding"
    | .Settled => .ok (p.Height + 1, p.NewLocalExitRoot)
    | .InError =>
      match p.PreviousLocalExitRoot with
      | some ler => .ok (p.Height, ler)
      | none =>
        if p.Height = 0 then .ok (p.Height, zeroLER)
        else
          match lookup (p.Height - 1) with
          | .ok (some below) =>
            if below.Status.IsSettled then .ok (p.Height, below.NewLocalExitRoot)
            else .error "certificate below the retry height is not settled"
          | .ok none => .error "certificate below the retry height is missing"
          | .error _ => .error "error looking up the certificate below the retry height"

/-- Forgets the error message of an Except, keeping only ok values. -/
def exceptToOption {α : Type} (e : Except String α) : Option α :=
  match e with
  | .ok a => some a
  | .error _ => none

/-- Decides whether an Except is an ok value. -/
def isOkE {α : Type} (e : Except String α) : Bool :=
  match e with
  | .ok _ => true
  | .error _ => false

/-- The retry loop of saveCertificateToStorage in aggsender.go: save attempts
are an oracle indexed by call number; the retries counter starts at 1 as in
the source; fuel bounds the number of iterations we unfold (the source loop
may run forever when maxRetries is 0 and every attempt fails).  The result is
none when fuel runs out, otherwise (success flag, number of save calls). -/
def saveCertLoop (save : Nat → Bool) (maxRetries : Nat) :
    Nat → Nat → Nat → Option (Bool × Nat)
  | 0, _, _ => none
  | fuel + 1, retries, calls =>
    if save calls then some (true, calls + 1)
    else if retries = maxRetries then some (false, calls + 1)
    else saveCertLoop save maxRetries fuel (retries + 1) (calls + 1)

/-- saveCertificateToStorage of aggsender.go, entered with retries = 1. -/
def saveCertificateToStorage (save : Nat → Bool) (maxRetries fuel : Nat) :
    Option (Bool × Nat) :=
  saveCertLoop save maxRetries fuel 1 0

/-- Outcome of a Go call in the embedding: an ok value, a returned error, a
nil-pointer dereference (runtime panic), or exhausted unfolding fuel. -/
inductive GoResult (α : Type) where
  | ok : α → GoResult α
  | err : String → GoResult α
  | nilPanic : GoResult α
  | fuelOut : GoResult α
deriving DecidableEq, Repr

/-- The loop body of limitCertSize in aggsender.go: return the previous
attempt once the bridges run out (a nil dereference when there is no previous
attempt), return the current attempt when the governor is disabled or the size
fits or the range is a single block, otherwise cut ToBlock by one and retry. -/
def limitCertSizeLoop (maxCertSize : Nat) :
    Nat → CertificateBuildParams → Option CertificateBuildParams →
    GoResult CertificateBuildParams
  | 0, _, _ => .fuelOut
  | fuel + 1, currentCert, previousCert =>
    if currentCert.NumberOfBridges = 0 then
      match previousCert with
      | none => .nilPanic
      | some p => .ok p
    else if maxCertSize = 0 ∨ currentCert.EstimatedSize < maxCertSize then
      .ok currentCert
    else if currentCert.NumberOfBlocks ≤ 1 then
      .ok currentCert
    else
      match currentCert.Range currentCert.FromBlock (currentCert.ToBlock - 1) with
      | .error e => .err ("error reducing certificate: " ++ e)
      | .ok next => limitCertSizeLoop maxCertSize fuel next (some currentCert)

/-- limitCertSize of aggsender.go; the fuel ToBlock+2 dominates the number of
one-block cuts the loop can make. -/
def limitCertSize (maxCertSize : Nat) (fullCert : CertificateBuildParams) :
    GoResult CertificateBuildParams :=
  limitCertSizeLoop maxCertSize (fullCert.ToBlock + 2) fullCert none

/-- The assembled certificate (agglayer.Certificate); bridge exits and
imported bridge exits are kept abstract (Nat tokens), the metadata hash in
decoded form. -/
structure Certificate where
  NetworkID : Nat
  PrevLocalExitRoot : Nat
  NewLocalExitRoot : Nat
  BridgeExits : List Nat
  ImportedBridgeExits : List Nat
  Height : Nat
  Metadata : CertificateMetadata
deriving DecidableEq, Repr

/-- The wire signature triple (agglayer.Signature). -/
structure Signature where
  R : Nat
  S : Nat
  OddParity : Bool
deriving DecidableEq, Repr

/-- agglayer.SignedCertificate: a certificate plus its signature. -/
structure SignedCertificate where
  Certificate : Certificate
  Signature : Signature
deriving DecidableEq, Repr

/-- Oracles consumed by buildCertificate: the claim-to-imported-exit
conversion with its Merkle proofs, the exit-root reads (real accumulator and
the fake-bridge transactional read), the bridge-exit conversion (whose
metadata hashing is external), the synthetic bridge exit and the storage
lookup by height used by the height/LER resolution. -/
structure BuildOracles where
  importedExits : List Claim → Except String (List Nat)
  exitRootByIndex : Nat → Except String Nat
  fakeExitRoot : Except String Nat
  bridgeExits : List Bridge → List Nat
  fakeBridgeExit : Nat
  lookupByHeight : Nat → Except String (Option CertificateInfo)

/-- buildCertificate of aggsender.go: reject empty params, convert bridges,
convert claims (with proofs), compute the exit root (through the fake-bridge
transaction when requested), resolve height and previous LER, and assemble
the certificate with its metadata. -/
def buildCertificate (o : BuildOracles) (certParams : CertificateBuildParams)
    (lastSentCertificateInfo : Option CertificateInfo)
    (addFakeBridge : Bool) (networkID : Nat) : Except String Certificate :=
  if certParams.IsEmpty then .error errNoBridgesAndClaims
  else
    let bridgeExits0 := o.bridgeExits certParams.Bridges
    match o.importedExits certParams.Claims with
    | .error e => .error ("error getting imported bridge exits: " ++ e)
    | .ok importedBridgeExits =>
      match (if addFakeBridge then o.fakeExitRoot
             else o.exitRootByIndex certParams.MaxDepositCount) with
      | .error e => .error ("error getting exit root: " ++ e)
      | .ok exitRoot =>
        let bridgeExits :=
          if addFakeBridge then bridgeExits0 ++ [o.fakeBridgeExit] else bridgeExits0
        match getNextHeightAndPreviousLER o.lookupByHeight lastSentCertificateInfo with
        | .error e => .error ("error getting next height and previous LER: " ++ e)
        | .ok hp =>
          .ok { NetworkID := networkID,
                PrevLocalExitRoot := hp.2,
                NewLocalExitRoot := exitRoot,
                BridgeExits := bridgeExits,
                ImportedBridgeExits := importedBridgeExits,
                Height := hp.1,
                Metadata := NewCertificateMetadata certParams.FromBlock
                  (certParams.ToBlock - certParams.FromBlock) certParams.CreatedAt }

/-- signCertificate of aggsender.go: the ECDSA signing over the canonical
hash is an oracle producing the raw byte slice, which extractSignatureData
decomposes into the wire triple. -/
def signCertificate (sign : Certificate → Except String (List Nat))
    (certificate : Certificate) : Except String SignedCertificate :=
  match sign certificate with
  | .error e => .error e
  | .ok sig =>
    match extractSignatureData sig with
    | .error e => .error e
    | .ok rsp =>
      .ok { Certificate := certificate,
            Signature := { R := rsp.1, S := rsp.2.1, OddParity := rsp.2.2 } }

/-- Oracles consumed by sendCertificate: the L2 syncer reads, the storage
last-sent read, signing, the agglayer submission (returning the certificate
hash), and the sequence of storage save outcomes with its unfolding fuel. -/
structure SendOracles where
  build : BuildOracles
  lastProcessedBlock : Except String Nat
  lastSentCertificate : Except String (Option CertificateInfo)
  getBridges : Nat → Nat → Except String (List Bridge)
  getClaims : Nat → Nat → Except String (List Claim)
  sign : Certificate → Except String (List Nat)
  sendToAgglayer : SignedCertificate → Except String Nat
  saveResults : Nat → Bool
  saveFuel : Nat
  networkID : Nat
  now : Nat

/-- The configuration knobs sendCertificate reads. -/
structure SendConfig where
  maxCertSize : Nat
  maxRetriesStoreCertificate : Nat
  dryRun : Bool
deriving DecidableEq, Repr

/-- Result of one sendCertificate call: a no-op tick, or a signed certificate
together with the CertificateInfo persisted for it (none when not stored) and
whether single-certificate mode exits the process. -/
inductive SendOutcome where
  | noop : SendOutcome
  | sent : SignedCertificate → Option CertificateInfo → Bool → SendOutcome
deriving DecidableEq, Repr

/-- sendCertificate of aggsender.go, followed step by step: read the last
processed L2 block and the last sent certificate, compute the new range, no-op
when there are no new blocks or no bridges, fetch claims, govern the size,
build, optionally empty, sign, honor dry-run, submit, optionally skip storing,
and persist the CertificateInfo with bounded retries. -/
def sendCertificate (o : SendOracles) (cfg : SendConfig)
    (emptyCert addFakeBridge storeCertificate singleCert : Bool) :
    GoResult SendOutcome :=
  match o.lastProcessedBlock with
  | .error e => .err ("error getting last processed block from l2: " ++ e)
  | .ok lastL2BlockSynced =>
  match o.lastSentCertificate with
  | .error e => .err e
  | .ok lastSentCertificateInfo =>
  let pr := getLastSentBlockAndRetryCount lastSentCertificateInfo
  if lastL2BlockSynced ≤ pr.1 then .ok .noop
  else
  let fromBlock := pr.1 + 1
  let toBlock := lastL2BlockSynced
  match o.getBridges fromBlock toBlock with
  | .error e => .err ("error getting bridges: " ++ e)
  | .ok bridges =>
  if bridges.length = 0 then .ok .noop
  else
  match o.getClaims fromBlock toBlock with
  | .error e => .err ("error getting claims: " ++ e)
  | .ok claims =>
  let certificateParams : CertificateBuildParams :=
    { FromBlock := fromBlock, ToBlock := toBlock,
      Bridges := bridges, Claims := claims, CreatedAt := o.now }
  match limitCertSize cfg.maxCertSize certificateParams with
  | .err e => .err ("error limitCertSize: " ++ e)
  | .nilPanic => .nilPanic
  | .fuelOut => .fuelOut
  | .ok limitedParams =>
  match buildCertificate o.build limitedParams lastSentCertificateInfo
      addFakeBridge o.networkID with
  | .error e => .err ("error building certificate: " ++ e)
  | .ok certificate0 =>
  let certificate :=
    if emptyCert then
      { certificate0 with BridgeExits := [], ImportedBridgeExits := [] }
    else certificate0
  match signCertificate o.sign certificate with
  | .error e => .err ("error signing certificate: " ++ e)
  | .ok signedCertificate =>
  if cfg.dryRun then .ok (.sent signedCertificate none false)
  else
  match o.sendToAgglayer signedCertificate with
  | .error e => .err ("error sending certificate: " ++ e)
  | .ok certificateHash =>
  if storeCertificate = false then .ok (.sent signedCertificate none false)
  else
  let certInfo : CertificateInfo :=
    { Height := certificate.Height,
      RetryCount := pr.2,
      CertificateID := certificateHash,
      NewLocalExitRoot := certificate.NewLocalExitRoot,
      PreviousLocalExitRoot := some certificate.PrevLocalExitRoot,
      FromBlock := fromBlock,
      ToBlock := toBlock,
      Status := .Pending,
      CreatedAt := limitedParams.CreatedAt,
      UpdatedAt := limitedParams.CreatedAt,
      SignedCertificate := "raw" }
  match saveCertificateToStorage o.saveResults cfg.maxRetriesStoreCertificate
      o.saveFuel with
  | none => .fuelOut
  | some (false, _) => .err "error saving last sent certificate in db"
  | some (true, _) => .ok (.sent signedCertificate (some certInfo) singleCert)

/-- updateCertificateStatus of aggsender.go with the storage write as an
oracle: a no-op when the statuses agree, otherwise the local record takes the
remote status and is written back. -/
def updateCertificateStatus (update : CertificateInfo → Except String Unit)
    (now : Nat) (localCert : CertificateInfo) (agglayerCert : CertHeader) :
    Except String CertificateInfo :=
  if localCert.Status = agglayerCert.Status then .ok localCert
  else
    let c := { localCert with Status := agglayerCert.Status, UpdatedAt := now }
    match update c with
    | .error e => .error ("error updating certificate. Err: " ++ e)
    | .ok _ => .ok c

/-- Oracles consumed by checkPendingCertificatesStatus: the storage query for
non-settled certificates, the agglayer header fetch, and the storage status
write. -/
structure CheckOracles where
  getPending : Except String (List CertificateInfo)
  getHeader : Nat → Except String CertHeader
  update : CertificateInfo → Except String Unit

/-- One certificate's poll succeeded and left it closed: the header fetch and
the status write both succeeded and the refreshed status is closed. -/
def certPollClosed (co : CheckOracles) (now : Nat) (c : CertificateInfo) : Bool :=
  match co.getHeader c.CertificateID with
  | .error _ => false
  | .ok h =>
    match updateCertificateStatus co.update now c h with
    | .error _ => false
    | .ok c2 => c2.IsClosed

/-- The loop of checkPendingCertificatesStatus: any fetch or write error
returns true immediately; an open certificate sets the pending flag and the
loop continues. -/
def checkPendingLoop (co : CheckOracles) (now : Nat) :
    List CertificateInfo → Bool → Bool
  | [], acc => acc
  | c :: rest, acc =>
    match co.getHeader c.CertificateID with
    | .error _ => true
    | .ok h =>
      match updateCertificateStatus co.update now c h with
      | .error _ => true
      | .ok c2 => checkPendingLoop co now rest (acc || !c2.IsClosed)

/-- checkPendingCertificatesStatus of aggsender.go: an error on the status
query counts as pending; otherwise every queried certificate is polled. -/
def checkPendingCertificatesStatus (co : CheckOracles) (now : Nat) : Bool :=
  match co.getPending with
  | .error _ => true
  | .ok pendingCertificates => checkPendingLoop co now pendingCertificates false

/-- One tick of the sendCertificates loop in aggsender.go: build and send only
when the pending check reports no pending certificates, otherwise skip. -/
def sendCertificatesTick (co : CheckOracles) (now : Nat) (o : SendOracles)
    (cfg : SendConfig) (emptyCert addFakeBridge storeCertificate singleCert : Bool) :
    Option (GoResult SendOutcome) :=
  if checkPendingCertificatesStatus co now then none
  else some (sendCertificate o cfg emptyCert addFakeBridge storeCertificate singleCert)

/-- The local lifecycle store for the reconciliation engine, modelled as the
list of persisted CertificateInfo rows in insertion order; the last row is the
last sent certificate.  An in-memory store's writes always succeed. -/
def getLastSentCertificate (store : List CertificateInfo) : Option CertificateInfo :=
  store.getLast?

/-- SaveLastSentCertificate on the pure store: append the row. -/
def saveLastSentCertificate (store : List CertificateInfo) (c : CertificateInfo) :
    List CertificateInfo :=
  store ++ [c]

/-- UpdateCertificate on the pure store: replace the row with the same
certificate id. -/
def updateCertificateRow (store : List CertificateInfo) (c : CertificateInfo) :
    List CertificateInfo :=
  store.map (fun x => if x.CertificateID = c.CertificateID then c else x)

/-- The body of NewCertificateInfoFromAgglayerCertHeader in aggsender.go for a
non-nil header: ToBlock is FromBlock plus the metadata offset and CreatedAt is
the decoded timestamp, except under a legacy (version below 1) metadata where
ToBlock comes from the legacy field and CreatedAt is the current time;
PreviousLocalExitRoot is copied when the header records one. -/
def certInfoFromHeader (now : Nat) (c : CertHeader) : CertificateInfo :=
  let meta := c.Metadata
  let toBlock := if meta.Version < 1 then meta.ToBlock else meta.FromBlock + meta.Offset
  let createdAt := if meta.Version < 1 then now else meta.CreatedAt
  { Height := c.Height,
    RetryCount := 0,
    CertificateID := c.CertificateID,
    NewLocalExitRoot := c.NewLocalExitRoot,
    PreviousLocalExitRoot :=
      match c.PreviousLocalExitRoot with
      | some p => some p
      | none => none,
    FromBlock := meta.FromBlock,
    ToBlock := toBlock,
    Status := c.Status,
    CreatedAt := createdAt,
    UpdatedAt := now,
    SignedCertificate := "na/agglayer header" }

/-- NewCertificateInfoFromAgglayerCertHeader of aggsender.go (nil header gives
nil). -/
def NewCertificateInfoFromAgglayerCertHeader (now : Nat) (c : Option CertHeader) :
    Option CertificateInfo :=
  match c with
  | none => none
  | some h => some (certInfoFromHeader now h)

/-- updateLocalStorageWithAggLayerCert of aggsender.go over the pure store:
synthesize the CertificateInfo from the header and persist it as the last
sent certificate, returning the record and the new store. -/
def updateLocalStorageWithAggLayerCert (now : Nat) (store : List CertificateInfo)
    (aggLayerCert : CertHeader) : CertificateInfo × List CertificateInfo :=
  let certInfo := certInfoFromHeader now aggLayerCert
  (certInfo, saveLastSentCertificate store certInfo)

/-- updateCertificateStatus of aggsender.go over the pure store (the variant
the reconciliation engine uses, where the storage write cannot fail): returns
the new store and the refreshed record. -/
def updateCertificateStatusStore (now : Nat) (store : List CertificateInfo)
    (localCert : CertificateInfo) (agglayerCert : CertHeader) :
    List CertificateInfo × CertificateInfo :=
  if localCert.Status = agglayerCert.Status then (store, localCert)
  else
    let c := { localCert with Status := agglayerCert.Status, UpdatedAt := now }
    (updateCertificateRow store c, c)

/-- checkLastCertificateFromAgglayer of aggsender.go: the remote lookup is
passed as an Except (GetLatestKnownCertificateHeader), the local lookup reads
the pure store.  Case 1: both absent, nothing to do.  Case 2: local absent,
adopt the remote header.  Case 2.1: local present, remote absent, fail.  Case
3.1: remote behind local, fail.  Case 3.2: remote one ahead, adopt it.  Case
4: certificate ids differ, fail.  Case 5: refresh the local status. -/
def checkLastCertificateFromAgglayer (now : Nat) (store : List CertificateInfo)
    (remote : Except String (Option CertHeader)) :
    Except String (List CertificateInfo) :=
  match remote with
  | .error e =>
    .error ("recovery: error getting latest known certificate header from agglayer: " ++ e)
  | .ok aggLayerLastCert =>
    match getLastSentCertificate store, aggLayerLastCert with
    | none, none => .ok store
    | none, some r => .ok (updateLocalStorageWithAggLayerCert now store r).2
    | some _, none =>
      .error "recovery: certificate exists in storage but not in agglayer. Inconsistency"
    | some l, some r =>
      if r.Height < l.Height then
        .error "recovery: the last certificate in the agglayer has less height than the one in the local storage"
      else
        let ls :=
          if r.Height = l.Height + 1 then
            let pr := updateLocalStorageWithAggLayerCert now store r
            (pr.1, pr.2)
          else (l, store)
        if ls.1.CertificateID ≠ r.CertificateID then
          .error "recovery: mismatch between local and agglayer certificates"
        else
          .ok (updateCertificateStatusStore now ls.2 ls.1 r).1

/-- The retry loop of checkInitialStatus in aggsender.go: reconciliation
attempts are an oracle indexed by attempt number; the loop returns once an
attempt succeeds, and fuel bounds how many attempts we unfold (the source
retries forever).  The result says whether the submission loop was reached. -/
def checkInitialStatusLoop (attemptOk : Nat → Bool) : Nat → Nat → Bool
  | 0, _ => false
  | fuel + 1, i => if attemptOk i then true else checkInitialStatusLoop attemptOk fuel (i + 1)

/-- checkInitialStatus of aggsender.go, entered at the first attempt. -/
def checkInitialStatusProceeds (attemptOk : Nat → Bool) (fuel : Nat) : Bool :=
  checkInitialStatusLoop attemptOk fuel 0

/-- C1: Height/Previous-LER resolution is a pure function of the last
persisted CertificateInfo and behaves exactly as the specification's case
analysis: no prior gives height 0 and the zero-LER constant; a prior that is
not closed is an error; a Settled prior gives height+1 and its
NewLocalExitRoot; an InError prior reuses its height with the recorded
PreviousLocalExitRoot, else the zero LER at height 0, else the
NewLocalExitRoot of the stored certificate one height below (an error when
that certificate is missing or not Settled); any other status is an error.
Stated as pointwise agreement (same ok values, errors at the same inputs) of
the embedded source function with the specification's case analysis. -/
theorem getNextHeightAndPreviousLER_matches_spec :
    ∀ (lookup : Nat → Except String (Option CertificateInfo))
      (last : Option CertificateInfo),
      exceptToOption (getNextHeightAndPreviousLER lookup last) =
        exceptToOption (heightLERResolutionSpec lookup last) := by
  intro lookup last
  cases last with
  | none => rfl
  | some c =>
    cases hs : c.Status with
    | Pending =>
      simp [getNextHeightAndPreviousLER, heightLERResolutionSpec, hs,
        CertStatus.IsClosed, exceptToOption]
    | Settled =>
      simp [getNextHeightAndPreviousLER, heightLERResolutionSpec, hs,
        CertStatus.IsClosed, CertStatus.IsSettled, exceptToOption]
    | InError =>
      cases hp : c.PreviousLocalExitRoot with
      | some p =>
        simp [getNextHeightAndPreviousLER, heightLERResolutionSpec, hs, hp,
          CertStatus.IsClosed, CertStatus.IsSettled, CertStatus.IsInError,
          exceptToOption]
      | none =>
        by_cases h0 : c.Height = 0
        · simp [getNextHeightAndPreviousLER, heightLERResolutionSpec, hs, hp, h0,
            CertStatus.IsClosed, CertStatus.IsSettled, CertStatus.IsInError,
            exceptToOption]
        · cases hl : lookup (c.Height - 1) with
          | error e =>
            simp [getNextHeightAndPreviousLER, heightLERResolutionSpec, hs, hp, h0,
              hl, CertStatus.IsClosed, CertStatus.IsSettled, CertStatus.IsInError,
              exceptToOption]
          | ok od =>
            cases od with
            | none =>
              simp [getNextHeightAndPreviousLER, heightLERResolutionSpec, hs, hp,
                h0, hl, CertStatus.IsClosed, CertStatus.IsSettled,
                CertStatus.IsInError, exceptToOption]
            | some d =>
              cases hd : d.Status <;>
                simp [getNextHeightAndPreviousLER, heightLERResolutionSpec, hs, hp,
                  h0, hl, hd, CertStatus.IsClosed, CertStatus.IsSettled,
                  CertStatus.IsInError, exceptToOption]

/-- Helper for C6: behavior of the save retry loop under a positive bound,
generalized over the current retries counter and call index. -/
theorem saveCertLoop_bounded (save : Nat → Bool) (n : Nat) :
    ∀ fuel retries calls, 1 ≤ retries → retries ≤ n → n + 1 - retries ≤ fuel →
      ∃ b c, saveCertLoop save n fuel retries calls = some (b, c) ∧
        c ≤ calls + (n + 1 - retries) ∧
        (b = false ↔ ∀ i, calls ≤ i → i < calls + (n + 1 - retries) → save i = false) := by
  intro fuel
  induction fuel with
  | zero => intro retries calls _ h2 h3; omega
  | succ fuel ih =>
    intro retries calls h1 h2 h3
    by_cases hs : save calls
    · refine ⟨true, calls + 1, by simp [saveCertLoop, hs], by omega, ?_⟩
      simp only [Bool.true_eq_false, false_iff]
      intro hall
      have := hall calls (le_refl _) (by omega)
      simp [hs] at this
    · by_cases hr : retries = n
      · refine ⟨false, calls + 1, ?_, by omega, ?_⟩
        · simp [saveCertLoop, hs, hr]
        · simp only [true_iff]
          intro i hi1 hi2
          have : i = calls := by omega
          subst this
          simpa using hs
      · obtain ⟨b, c, hEq, hc, hiff⟩ := ih (retries + 1) (calls + 1) (by omega)
          (by omega) (by omega)
        refine ⟨b, c, ?_, by omega, ?_⟩
        · simp [saveCertLoop, hs, hr, hEq]
        · rw [hiff]
          constructor
          · intro hall i hi1 hi2
            by_cases hic : i = calls
            · subst hic; simpa using hs
            · exact hall i (by omega) (by omega)
          · intro hall i hi1 hi2
            exact hall i (by omega) (by omega)

/-- Helper for C6: with bound 0 the loop never reports failure. -/
theorem saveCertLoop_zero_no_error (save : Nat → Bool) :
    ∀ fuel retries calls b c, 1 ≤ retries →
      saveCertLoop save 0 fuel retries calls = some (b, c) → b = true := by
  intro fuel
  induction fuel with
  | zero => intro retries calls b c _ h; simp [saveCertLoop] at h
  | succ fuel ih =>
    intro retries calls b c h1 h
    by_cases hs : save calls
    · simp [saveCertLoop, hs] at h; exact h.1
    · have hr : retries ≠ 0 := by omega
      simp [saveCertLoop, hs, hr] at h
      exact ih (retries + 1) (calls + 1) b c (by omega) h

/-- Helper for C6: with bound 0 the loop returns success right after the
first successful attempt. -/
theorem saveCertLoop_zero_success (save : Nat → Bool) :
    ∀ fuel delta retries calls, delta < fuel → save (calls + delta) = true →
      (∀ i, calls ≤ i → i < calls + delta → save i = false) → 1 ≤ retries →
      saveCertLoop save 0 fuel retries calls = some (true, calls + delta + 1) := by
  intro fuel
  induction fuel with
  | zero => intro delta retries calls h; omega
  | succ fuel ih =>
    intro delta retries calls hlt hk hfail h1
    cases delta with
    | zero =>
      simp at hk
      simp [saveCertLoop, hk]
    | succ delta =>
      have hs : save calls = false := hfail calls (le_refl _) (by omega)
      have hr : retries ≠ 0 := by omega
      have := ih delta (retries + 1) (calls + 1) (by omega)
        (by simpa [Nat.add_assoc, Nat.add_comm, Nat.add_left_comm] using hk)
        (fun i hi1 hi2 => hfail i (by omega) (by omega)) (by omega)
      simp only [saveCertLoop, hs, Bool.false_eq_true, if_false, hr, ite_false]
      rw [this]
      congr 2
      omega

/-- C6: saveCertificateToStorage treats the configured retry bound as total
attempts: for a bound n of at least 1 it makes at most n save calls and
returns an error exactly when the first n calls all fail (bound 1 fails on
the very first failed attempt); for bound 0 it never returns an error and
returns success once some attempt succeeds. -/
theorem saveCertificateToStorage_total_attempts :
    ∀ save : Nat → Bool,
      (∀ n fuel, 1 ≤ n → n ≤ fuel →
        ∃ b c, saveCertificateToStorage save n fuel = some (b, c) ∧ c ≤ n ∧
          (b = false ↔ ∀ i, i < n → save i = false)) ∧
      (∀ fuel, 1 ≤ fuel → save 0 = false →
        saveCertificateToStorage save 1 fuel = some (false, 1)) ∧
      (∀ fuel b c, saveCertificateToStorage save 0 fuel = some (b, c) → b = true) ∧
      (∀ k fuel, k < fuel → save k = true → (∀ i, i < k → save i = false) →
        saveCertificateToStorage save 0 fuel = some (true, k + 1)) := by
  intro save
  refine ⟨?_, ?_, ?_, ?_⟩
  · intro n fuel h1 h2
    obtain ⟨b, c, hEq, hc, hiff⟩ :=
      saveCertLoop_bounded save n fuel 1 0 (le_refl _) h1 (by omega)
    refine ⟨b, c, hEq, by omega, ?_⟩
    rw [hiff]
    constructor
    · intro hall i hi; exact hall i (by omega) (by omega)
    · intro hall i _ hi; exact hall i (by omega)
  · intro fuel h1 hs
    cases fuel with
    | zero => omega
    | succ fuel => simp [saveCertificateToStorage, saveCertLoop, hs]
  · intro fuel b c h
    exact saveCertLoop_zero_no_error save fuel 1 0 b c (le_refl _) h
  · intro k fuel hlt hk hfail
    have := saveCertLoop_zero_success save fuel k 1 0 hlt (by simpa using hk)
      (fun i hi1 hi2 => hfail i (by omega)) (le_refl _)
    simpa [saveCertificateToStorage] using this

/-- Witness for C6 at a concrete save sequence (first attempt fails, second
succeeds) and bound 3. -/
theorem saveCertificateToStorage_total_attempts_witness :
    ∃ b c, saveCertificateToStorage (fun i => decide (i = 1)) 3 5 = some (b, c) ∧
      c ≤ 3 ∧ (b = false ↔ ∀ i, i < 3 → (fun i => decide (i = 1)) i = false) :=
  (saveCertificateToStorage_total_attempts (fun i => decide (i = 1))).1 3 5
    (by decide) (by decide)

/-- C9: extractSignatureData rejects every byte slice whose length is not 65
with the invalid-signature-size error, and on every 65-byte input succeeds
with R the big-endian value of bytes 0-31, S that of bytes 32-63, and
OddParity true exactly when the last byte is odd. -/
theorem extractSignatureData_spec :
    ∀ sig : List Nat,
      (sig.length ≠ 65 → extractSignatureData sig = .error "invalid signature size") ∧
      (sig.length = 65 →
        ∃ r s b, extractSignatureData sig = .ok (r, s, b) ∧
          r = bytesToHash (sig.take 32) ∧
          s = bytesToHash ((sig.drop 32).take 32) ∧
          (b = true ↔ sig.getLastD 0 % 2 = 1)) := by
  intro sig
  constructor
  · intro h
    simp [extractSignatureData, signatureSize, h]
  · intro h
    refine ⟨bytesToHash (sig.take 32), bytesToHash ((sig.drop 32).take 32),
      sig.getD 64 0 % 2 == 1, ?_, rfl, rfl, ?_⟩
    · simp [extractSignatureData, signatureSize, h]
    · have h64 : sig.getD 64 0 = sig.getLastD 0 := by
        rw [List.getD_eq_getElem?_getD, List.getLastD_eq_getLast?,
          List.getLast?_eq_getElem?, h]
      rw [h64]
      simp

/-- Witness for C9: a 3-byte slice is rejected and a concrete 65-byte slice
is decomposed. -/
theorem extractSignatureData_spec_witness :
    extractSignatureData (List.range 3) = .error "invalid signature size" ∧
    ∃ r s b, extractSignatureData (List.range 65) = .ok (r, s, b) ∧
      r = bytesToHash ((List.range 65).take 32) ∧
      s = bytesToHash (((List.range 65).drop 32).take 32) ∧
      (b = true ↔ (List.range 65).getLastD 0 % 2 = 1) :=
  ⟨(extractSignatureData_spec (List.range 3)).1 (by decide),
   (extractSignatureData_spec (List.range 65)).2 (by decide)⟩

/-- C5: adopting a remote header synthesizes and persists exactly one
CertificateInfo whose Height, CertificateID, NewLocalExitRoot, Status and
PreviousLocalExitRoot are copied from the header, whose FromBlock comes from
the decoded metadata with ToBlock = FromBlock + Offset, and whose legacy
reconstruction (metadata version below 1) takes ToBlock from the legacy field
and CreatedAt from the current time; on an empty local store the
reconciliation case persists exactly that one record. -/
theorem updateLocalStorageWithAggLayerCert_adopts :
    ∀ (now : Nat) (store : List CertificateInfo) (h : CertHeader),
      (∃ ci, updateLocalStorageWithAggLayerCert now store h = (ci, store ++ [ci]) ∧
        ci.Height = h.Height ∧
        ci.CertificateID = h.CertificateID ∧
        ci.NewLocalExitRoot = h.NewLocalExitRoot ∧
        ci.Status = h.Status ∧
        ci.PreviousLocalExitRoot = h.PreviousLocalExitRoot ∧
        ci.FromBlock = h.Metadata.FromBlock ∧
        ci.ToBlock = (if h.Metadata.Version < 1 then h.Metadata.ToBlock
                      else h.Metadata.FromBlock + h.Metadata.Offset) ∧
        ci.CreatedAt = (if h.Metadata.Version < 1 then now else h.Metadata.CreatedAt)) ∧
      checkLastCertificateFromAgglayer now [] (.ok (some h)) =
        .ok [certInfoFromHeader now h] := by
  intro now store h
  refine ⟨⟨certInfoFromHeader now h, rfl, rfl, rfl, rfl, rfl, ?_, rfl, rfl, rfl⟩, rfl⟩
  simp only [certInfoFromHeader]
  cases h.PreviousLocalExitRoot <;> rfl

/-- Helper for C2: the startup retry loop reaches the submission loop exactly
when some unfolded attempt succeeds. -/
theorem checkInitialStatusLoop_iff (attemptOk : Nat → Bool) :
    ∀ fuel i, checkInitialStatusLoop attemptOk fuel i = true ↔
      ∃ j, j < fuel ∧ attemptOk (i + j) = true := by
  intro fuel
  induction fuel with
  | zero => intro i; simp [checkInitialStatusLoop]
  | succ fuel ih =>
    intro i
    by_cases hs : attemptOk i
    · simp only [checkInitialStatusLoop, hs, if_true, true_iff]
      exact ⟨0, by omega, by simpa using hs⟩
    · simp only [checkInitialStatusLoop, hs, Bool.false_eq_true, if_false]
      rw [ih (i + 1)]
      constructor
      · rintro ⟨j, hj, hok⟩
        exact ⟨j + 1, by omega, by simpa [Nat.add_assoc, Nat.add_comm, Nat.add_left_comm] using hok⟩
      · rintro ⟨j, hj, hok⟩
        cases j with
        | zero => simp at hok; exact absurd hok hs
        | succ j =>
          exact ⟨j, by omega, by simpa [Nat.add_assoc, Nat.add_comm, Nat.add_left_comm] using hok⟩

/-- C2 (amended): with the remote lookup succeeding with header R and the
local last-sent lookup reading L from the store, reconciliation fails exactly
when L is present and R absent, or R.Height < L.Height, or R.Height is
neither behind nor exactly L.Height+1 and the CertificateID differs (the
same-height divergence is one instance of this); in every other case it
succeeds.  The startup check reaches the submission loop exactly when some
reconciliation attempt succeeds. -/
theorem checkLastCertificateFromAgglayer_error_cases :
    (∀ (now : Nat) (store : List CertificateInfo) (r : Option CertHeader),
      isOkE (checkLastCertificateFromAgglayer now store (.ok r)) = false ↔
        (∃ l, getLastSentCertificate store = some l ∧ r = none) ∨
        (∃ l rr, getLastSentCertificate store = some l ∧ r = some rr ∧
          (rr.Height < l.Height ∨
            (¬ rr.Height < l.Height ∧ rr.Height ≠ l.Height + 1 ∧
              rr.CertificateID ≠ l.CertificateID)))) ∧
    (∀ (attemptOk : Nat → Bool) (fuel : Nat),
      checkInitialStatusProceeds attemptOk fuel = true ↔
        ∃ i, i < fuel ∧ attemptOk i = true) := by
  constructor
  · intro now store r
    cases hL : getLastSentCertificate store with
    | none =>
      cases r with
      | none => simp [checkLastCertificateFromAgglayer, hL, isOkE]
      | some rr => simp [checkLastCertificateFromAgglayer, hL, isOkE]
    | some l =>
      cases r with
      | none => simp [checkLastCertificateFromAgglayer, hL, isOkE]
      | some rr =>
        by_cases h1 : rr.Height < l.Height
        · simp [checkLastCertificateFromAgglayer, hL, h1, isOkE]
        · by_cases h2 : rr.Height = l.Height + 1
          · have hid : (updateLocalStorageWithAggLayerCert now store rr).1.CertificateID =
                rr.CertificateID := rfl
            simp [checkLastCertificateFromAgglayer, hL, h1, h2, hid, isOkE]
          · by_cases h3 : l.CertificateID = rr.CertificateID
            · simp [checkLastCertificateFromAgglayer, hL, h1, h2, h3, isOkE]
            · simp [checkLastCertificateFromAgglayer, hL, h1, h2, h3, isOkE]
              exact ⟨by omega, fun hcontra => h3 hcontra.symm⟩
  · intro attemptOk fuel
    simpa using checkInitialStatusLoop_iff attemptOk fuel 0

/-- Local record for the C2 counterexample: height 0, certificate id 1. -/
def c2Local : CertificateInfo :=
  { Height := 0, RetryCount := 0, CertificateID := 1, NewLocalExitRoot := 0,
    PreviousLocalExitRoot := none, FromBlock := 0, ToBlock := 0,
    Status := .Settled, CreatedAt := 0, UpdatedAt := 0, SignedCertificate := "" }

/-- Remote header for the C2 counterexample: height 2, certificate id 2. -/
def c2Remote : CertHeader :=
  { Height := 2, CertificateID := 2, NewLocalExitRoot := 0,
    PreviousLocalExitRoot := none, Status := .Settled,
    Metadata := { Version := 1, FromBlock := 0, Offset := 0, CreatedAt := 0, ToBlock := 0 } }

/-- Counterexample to C2 as stated: both lookups succeed, the local record
exists, the remote header exists at height 2 (not behind, and not at the same
height as the local record at height 0), yet reconciliation returns an error
- so the claim's "in every other case it succeeds" is false. -/
theorem checkLastCertificateFromAgglayer_claim_counterexample :
    getLastSentCertificate [c2Local] = some c2Local ∧
    (some c2Remote : Option CertHeader) ≠ none ∧
    ¬ c2Remote.Height < c2Local.Height ∧
    c2Remote.Height ≠ c2Local.Height ∧
    isOkE (checkLastCertificateFromAgglayer 0 [c2Local] (.ok (some c2Remote))) = false := by
  decide

/-- Helper for C4 and C10: when the range spans more than one block, cutting
ToBlock by one is a valid Range call and produces the cutOf params. -/
theorem range_cut (c : CertificateBuildParams) (h : 1 < c.NumberOfBlocks) :
    c.Range c.FromBlock (c.ToBlock - 1) = .ok c.cutOf := by
  have hb : c.FromBlock < c.ToBlock := by
    simp only [CertificateBuildParams.NumberOfBlocks] at h; omega
  simp only [CertificateBuildParams.Range, CertificateBuildParams.cutOf]
  rw [if_neg (by rintro ⟨_, h2⟩; omega),
    if_neg (by rintro (h1 | h2) <;> omega)]

/-- Helper for C10: the loop panics immediately when entered with zero
bridges and no previous attempt. -/
theorem limitCertSizeLoop_zero_bridges (maxCertSize fuel : Nat)
    (cur : CertificateBuildParams) (h : cur.NumberOfBridges = 0) :
    limitCertSizeLoop maxCertSize (fuel + 1) cur none = .nilPanic := by
  simp only [limitCertSizeLoop]
  rw [if_pos h]

/-- Helper for C4 and C10: invariant of the limitCertSize loop relative to
the original params P.  With enough fuel, a current attempt that shares P's
FromBlock and does not extend past P, and a previous attempt that was a
non-fitting one-block-larger version, the loop returns some params R that is
P or a strict prefix, still has a bridge, and stopped for one of the loop's
three reasons (governor disabled or size fits, single block, or the next cut
would have no bridges). -/
theorem limitCertSizeLoop_ok (maxCertSize : Nat) (P : CertificateBuildParams) :
    ∀ fuel cur prev,
      cur.FromBlock = P.FromBlock →
      cur.FromBlock ≤ cur.ToBlock →
      cur.NumberOfBlocks ≤ fuel →
      (cur = P ∨ cur.ToBlock < P.ToBlock) →
      (match prev with
       | none => 1 ≤ cur.NumberOfBridges
       | some p => p.FromBlock = P.FromBlock ∧ (p = P ∨ p.ToBlock < P.ToBlock) ∧
           1 ≤ p.NumberOfBridges ∧ cur = p.cutOf) →
      ∃ R, limitCertSizeLoop maxCertSize fuel cur prev = .ok R ∧
        R.FromBlock = P.FromBlock ∧ (R = P ∨ R.ToBlock < P.ToBlock) ∧
        1 ≤ R.NumberOfBridges ∧
        (maxCertSize = 0 ∨ R.EstimatedSize < maxCertSize ∨
          R.NumberOfBlocks = 1 ∨ R.cutOf.NumberOfBridges = 0) := by
  intro fuel
  induction fuel with
  | zero =>
    intro cur prev h1 h2 h3 h4 h5
    exfalso
    simp only [CertificateBuildParams.NumberOfBlocks] at h3
    omega
  | succ fuel ih =>
    intro cur prev h1 h2 h3 h4 h5
    by_cases hb : cur.NumberOfBridges = 0
    · cases prev with
      | none => exfalso; omega
      | some p =>
        obtain ⟨hp1, hp2, hp3, hp4⟩ := h5
        refine ⟨p, ?_, hp1, hp2, hp3, Or.inr (Or.inr (Or.inr ?_))⟩
        · simp only [limitCertSizeLoop]
          rw [if_pos hb]
        · rw [← hp4]; exact hb
    · by_cases hfit : maxCertSize = 0 ∨ cur.EstimatedSize < maxCertSize
      · refine ⟨cur, ?_, h1, h4, by omega, ?_⟩
        · simp only [limitCertSizeLoop]
          rw [if_neg hb, if_pos hfit]
        · rcases hfit with h | h
          · exact Or.inl h
          · exact Or.inr (Or.inl h)
      · by_cases hblk : cur.NumberOfBlocks ≤ 1
        · refine ⟨cur, ?_, h1, h4, by omega, Or.inr (Or.inr (Or.inl ?_))⟩
          · simp only [limitCertSizeLoop]
            rw [if_neg hb, if_neg hfit, if_pos hblk]
          · simp only [CertificateBuildParams.NumberOfBlocks] at hblk ⊢
            omega
        · have hcut := range_cut cur (by omega)
          have hto : cur.cutOf.ToBlock = cur.ToBlock - 1 := rfl
          have hfrom : cur.cutOf.FromBlock = cur.FromBlock := rfl
          have hlt : cur.FromBlock < cur.ToBlock := by
            simp only [CertificateBuildParams.NumberOfBlocks] at hblk
            omega
          have hPto : cur.ToBlock ≤ P.ToBlock := by
            rcases h4 with h | h
            · rw [h]
            · omega
          obtain ⟨R, hR, hR1, hR2, hR3, hR4⟩ := ih cur.cutOf (some cur)
            (by rw [hfrom, h1])
            (by rw [hfrom, hto]; omega)
            (by simp only [CertificateBuildParams.NumberOfBlocks, hfrom, hto] at h3 ⊢
                simp only [CertificateBuildParams.NumberOfBlocks] at hblk
                omega)
            (Or.inr (by rw [hto]; omega))
            ⟨h1, h4, by omega, rfl⟩
          refine ⟨R, ?_, hR1, hR2, hR3, hR4⟩
          simp only [limitCertSizeLoop]
          rw [if_neg hb, if_neg hfit, if_neg hblk, hcut]
          exact hR

/-- Helper for C4 and C10: limitCertSize on params with at least one bridge
and a well-formed range always returns ok, with the loop's stop conditions. -/
theorem limitCertSize_ok (maxCertSize : Nat) (P : CertificateBuildParams)
    (hbr : 1 ≤ P.NumberOfBridges) (hft : P.FromBlock ≤ P.ToBlock) :
    ∃ R, limitCertSize maxCertSize P = .ok R ∧
      R.FromBlock = P.FromBlock ∧ (R = P ∨ R.ToBlock < P.ToBlock) ∧
      1 ≤ R.NumberOfBridges ∧
      (maxCertSize = 0 ∨ R.EstimatedSize < maxCertSize ∨
        R.NumberOfBlocks = 1 ∨ R.cutOf.NumberOfBridges = 0) := by
  have := limitCertSizeLoop_ok maxCertSize P (P.ToBlock + 2) P none rfl hft
    (by simp only [CertificateBuildParams.NumberOfBlocks]; omega) (Or.inl rfl) hbr
  simpa [limitCertSize] using this

/-- C4 (amended): for params P with at least one bridge, a positive ceiling
and EstimatedSize(P) above the ceiling, the governor returns R with the same
FromBlock and R.ToBlock at most P.ToBlock; R fits the ceiling, or spans a
single block, or is the attempt whose one-block cut would have zero bridges
(in the latter two cases R may be P itself, so R.ToBlock < P.ToBlock holds
except in them); and each loop iteration cuts ToBlock by exactly one block. -/
theorem limitCertSize_governor :
    (∀ (maxCertSize : Nat) (P : CertificateBuildParams),
      1 ≤ P.NumberOfBridges → P.FromBlock ≤ P.ToBlock →
      0 < maxCertSize → maxCertSize < P.EstimatedSize →
      ∃ R, limitCertSize maxCertSize P = .ok R ∧
        R.FromBlock = P.FromBlock ∧ R.ToBlock ≤ P.ToBlock ∧
        (R.EstimatedSize ≤ maxCertSize ∨ R.NumberOfBlocks = 1 ∨
          R.cutOf.NumberOfBridges = 0) ∧
        (R.ToBlock < P.ToBlock ∨ R.NumberOfBlocks = 1 ∨
          R.cutOf.NumberOfBridges = 0)) ∧
    (∀ (maxCertSize fuel : Nat) (cur : CertificateBuildParams)
        (prev : Option CertificateBuildParams),
      0 < cur.NumberOfBridges → maxCertSize ≠ 0 →
      maxCertSize ≤ cur.EstimatedSize → 1 < cur.NumberOfBlocks →
      limitCertSizeLoop maxCertSize (fuel + 1) cur prev =
        limitCertSizeLoop maxCertSize fuel cur.cutOf (some cur) ∧
      cur.cutOf.ToBlock + 1 = cur.ToBlock) := by
  constructor
  · intro maxCertSize P hbr hft hpos hover
    obtain ⟨R, hR, h1, h2, h3, h4⟩ := limitCertSize_ok maxCertSize P hbr hft
    have hsize : R.EstimatedSize ≤ maxCertSize ∨ R.NumberOfBlocks = 1 ∨
        R.cutOf.NumberOfBridges = 0 := by
      rcases h4 with h | h | h | h
      · omega
      · exact Or.inl (by omega)
      · exact Or.inr (Or.inl h)
      · exact Or.inr (Or.inr h)
    refine ⟨R, hR, h1, ?_, hsize, ?_⟩
    · rcases h2 with h | h
      · rw [h]
      · omega
    · rcases h2 with h | h
      · subst h
        rcases hsize with h | h | h
        · omega
        · exact Or.inr (Or.inl h)
        · exact Or.inr (Or.inr h)
      · exact Or.inl h
  · intro maxCertSize fuel cur prev hbr hmax hsize hblk
    have hlt : cur.FromBlock < cur.ToBlock := by
      simp only [CertificateBuildParams.NumberOfBlocks] at hblk
      omega
    constructor
    · simp only [limitCertSizeLoop]
      rw [if_neg (by omega), if_neg (by rintro (h | h) <;> omega),
        if_neg (by simp only [CertificateBuildParams.NumberOfBlocks] at hblk ⊢; omega),
        range_cut cur hblk]
    · have hto : cur.cutOf.ToBlock = cur.ToBlock - 1 := rfl
      omega

/-- Concrete bridge for the C4 counterexample. -/
def c4Bridge : Bridge := { BlockNum := 1, DepositCount := 0 }

/-- Concrete single-block oversize params for the C4 counterexample. -/
def c4Params : CertificateBuildParams :=
  { FromBlock := 1, ToBlock := 1, Bridges := [c4Bridge], Claims := [], CreatedAt := 0 }

/-- Counterexample to C4 as stated: single-block params with one bridge and
estimated size above the positive ceiling are returned unchanged, so the
returned range does not satisfy R.ToBlock < P.ToBlock. -/
theorem limitCertSize_claim_counterexample :
    1 ≤ c4Params.NumberOfBridges ∧ 0 < 100 ∧ 100 < c4Params.EstimatedSize ∧
    limitCertSize 100 c4Params = .ok c4Params ∧
    ¬ c4Params.ToBlock < c4Params.ToBlock := by
  decide

/-- Bridges for the C4 witness params (blocks 1 and 2). -/
def c4BridgeA : Bridge := { BlockNum := 1, DepositCount := 0 }

/-- Second bridge for the C4 witness params. -/
def c4BridgeB : Bridge := { BlockNum := 2, DepositCount := 1 }

/-- Two-block params for the C4 witness: one bridge per block, so the first
cut makes the size fit. -/
def c4ParamsW : CertificateBuildParams :=
  { FromBlock := 1, ToBlock := 2, Bridges := [c4BridgeA, c4BridgeB],
    Claims := [], CreatedAt := 0 }

/-- Witness for C4 at concrete two-block oversize params with ceiling 600. -/
theorem limitCertSize_governor_witness :
    ∃ R, limitCertSize 600 c4ParamsW = .ok R ∧
      R.FromBlock = c4ParamsW.FromBlock ∧ R.ToBlock ≤ c4ParamsW.ToBlock ∧
      (R.EstimatedSize ≤ 600 ∨ R.NumberOfBlocks = 1 ∨
        R.cutOf.NumberOfBridges = 0) ∧
      (R.ToBlock < c4ParamsW.ToBlock ∨ R.NumberOfBlocks = 1 ∨
        R.cutOf.NumberOfBridges = 0) :=
  limitCertSize_governor.1 600 c4ParamsW (by decide) (by decide) (by decide) (by decide)

/-- C10: limitCertSize called on params with zero bridges dereferences the
nil previous attempt and faults; sendCertificate never reaches that fault
(it returns early whenever the synced range has no bridges, so the faulting
call is unreachable from it); and under the at-least-one-bridge precondition
limitCertSize always returns a non-nil ok result. -/
theorem limitCertSize_nil_previous_precondition :
    (∀ (maxCertSize : Nat) (P : CertificateBuildParams),
      P.NumberOfBridges = 0 → limitCertSize maxCertSize P = .nilPanic) ∧
    (∀ (o : SendOracles) (cfg : SendConfig)
        (emptyCert addFakeBridge storeCertificate singleCert : Bool),
      sendCertificate o cfg emptyCert addFakeBridge storeCertificate singleCert ≠
        .nilPanic) ∧
    (∀ (maxCertSize : Nat) (P : CertificateBuildParams),
      1 ≤ P.NumberOfBridges → P.FromBlock ≤ P.ToBlock →
      ∃ R, limitCertSize maxCertSize P = .ok R) := by
  refine ⟨?_, ?_, ?_⟩
  · intro maxCertSize P h
    have h2 : P.ToBlock + 2 = P.ToBlock + 1 + 1 := by omega
    simp only [limitCertSize]
    rw [h2]
    exact limitCertSizeLoop_zero_bridges maxCertSize (P.ToBlock + 1) P h
  · intro o cfg emptyCert addFakeBridge storeCertificate singleCert
    cases h1 : o.lastProcessedBlock with
    | error e1 => simp [sendCertificate, h1]
    | ok lastB =>
      cases h2 : o.lastSentCertificate with
      | error e2 => simp [sendCertificate, h1, h2]
      | ok ls =>
        by_cases h3 : lastB ≤ (getLastSentBlockAndRetryCount ls).1
        · simp [sendCertificate, h1, h2, h3]
        · cases h4 : o.getBridges ((getLastSentBlockAndRetryCount ls).1 + 1) lastB with
          | error e4 => simp [sendCertificate, h1, h2, h3, h4]
          | ok bridges =>
            by_cases h5 : bridges.length = 0
            · simp [sendCertificate, h1, h2, h3, h4, h5]
            · cases h6 : o.getClaims ((getLastSentBlockAndRetryCount ls).1 + 1) lastB with
              | error e6 => simp [sendCertificate, h1, h2, h3, h4, h5, h6]
              | ok claims =>
                obtain ⟨R, hRok, -, -, -, -⟩ := limitCertSize_ok cfg.maxCertSize
                  { FromBlock := (getLastSentBlockAndRetryCount ls).1 + 1,
                    ToBlock := lastB, Bridges := bridges, Claims := claims,
                    CreatedAt := o.now }
                  (by simp only [CertificateBuildParams.NumberOfBridges]; omega)
                  (by show (getLastSentBlockAndRetryCount ls).1 + 1 ≤ lastB; omega)
                cases h7 : buildCertificate o.build R ls addFakeBridge o.networkID with
                | error e7 =>
                  simp [sendCertificate, h1, h2, h3, h4, h5, h6, hRok, h7]
                | ok cert0 =>
                  cases h8 : signCertificate o.sign
                      (if emptyCert = true then
                        { cert0 with BridgeExits := [], ImportedBridgeExits := [] }
                      else cert0) with
                  | error e8 =>
                    simp [sendCertificate, h1, h2, h3, h4, h5, h6, hRok, h7, h8]
                  | ok sc1 =>
                    by_cases h9 : cfg.dryRun = true
                    · simp [sendCertificate, h1, h2, h3, h4, h5, h6, hRok, h7, h8, h9]
                    · cases h10 : o.sendToAgglayer sc1 with
                      | error e10 =>
                        simp [sendCertificate, h1, h2, h3, h4, h5, h6, hRok, h7,
                          h8, h9, h10]
                      | ok certHash =>
                        by_cases h11 : storeCertificate = false
                        · simp [sendCertificate, h1, h2, h3, h4, h5, h6, hRok, h7,
                            h8, h9, h10, h11]
                        · cases h12 : saveCertificateToStorage o.saveResults
                              cfg.maxRetriesStoreCertificate o.saveFuel with
                          | none =>
                            simp [sendCertificate, h1, h2, h3, h4, h5, h6, hRok,
                              h7, h8, h9, h10, h11, h12]
                          | some bc =>
                            cases bc with
                            | mk b c =>
                              cases b <;>
                                simp [sendCertificate, h1, h2, h3, h4, h5, h6,
                                  hRok, h7, h8, h9, h10, h11, h12]
  · intro maxCertSize P hbr hft
    obtain ⟨R, hR, -, -, -⟩ := limitCertSize_ok maxCertSize P hbr hft
    exact ⟨R, hR⟩

/-- Zero-bridge params for the C10 witness. -/
def c10Empty : CertificateBuildParams :=
  { FromBlock := 1, ToBlock := 2, Bridges := [], Claims := [], CreatedAt := 0 }

/-- One-bridge params for the C10 witness. -/
def c10Params : CertificateBuildParams :=
  { FromBlock := 3, ToBlock := 3, Bridges := [{ BlockNum := 3, DepositCount := 0 }],
    Claims := [], CreatedAt := 0 }

/-- Witness for C10 at concrete params: the zero-bridge params fault, the
one-bridge params produce an ok result. -/
theorem limitCertSize_nil_previous_precondition_witness :
    limitCertSize 5 c10Empty = .nilPanic ∧ ∃ R, limitCertSize 5 c10Params = .ok R :=
  ⟨limitCertSize_nil_previous_precondition.1 5 c10Empty (by decide),
   limitCertSize_nil_previous_precondition.2.2 5 c10Params (by decide) (by decide)⟩

/-- C7: the certificate builder rejects params whose bridges and claims are
both empty with the no-bridges-and-claims error (so it never returns a
partial certificate), and one submission tick whose synced range has no
bridges is a no-op, not a failure. -/
theorem buildCertificate_empty_params :
    (∀ (o : BuildOracles) (params : CertificateBuildParams)
        (lastSent : Option CertificateInfo) (addFakeBridge : Bool) (networkID : Nat),
      params.IsEmpty = true →
      buildCertificate o params lastSent addFakeBridge networkID =
        .error errNoBridgesAndClaims) ∧
    (∀ (o : SendOracles) (cfg : SendConfig)
        (emptyCert addFakeBridge storeCertificate singleCert : Bool)
        (lastB : Nat) (ls : Option CertificateInfo),
      o.lastProcessedBlock = .ok lastB →
      o.lastSentCertificate = .ok ls →
      ¬ lastB ≤ (getLastSentBlockAndRetryCount ls).1 →
      o.getBridges ((getLastSentBlockAndRetryCount ls).1 + 1) lastB = .ok [] →
      sendCertificate o cfg emptyCert addFakeBridge storeCertificate singleCert =
        .ok .noop) := by
  constructor
  · intro o params lastSent addFakeBridge networkID h
    simp [buildCertificate, h]
  · intro o cfg emptyCert addFakeBridge storeCertificate singleCert lastB ls h1 h2 h3 h4
    simp [sendCertificate, h1, h2, h3, h4]

/-- Trivial build oracles used by the C7 witness. -/
def c7BuildOracles : BuildOracles :=
  { importedExits := fun _ => .ok [], exitRootByIndex := fun _ => .ok 0,
    fakeExitRoot := .ok 0, bridgeExits := fun _ => [], fakeBridgeExit := 0,
    lookupByHeight := fun _ => .ok none }

/-- Empty params for the C7 witness. -/
def c7Empty : CertificateBuildParams :=
  { FromBlock := 1, ToBlock := 1, Bridges := [], Claims := [], CreatedAt := 0 }

/-- Send oracles for the C7 witness: blocks to cover but no bridges. -/
def c7SendOracles : SendOracles :=
  { build := c7BuildOracles, lastProcessedBlock := .ok 5,
    lastSentCertificate := .ok none, getBridges := fun _ _ => .ok [],
    getClaims := fun _ _ => .ok [], sign := fun _ => .error "na",
    sendToAgglayer := fun _ => .error "na", saveResults := fun _ => true,
    saveFuel := 1, networkID := 1, now := 0 }

/-- Config for the C7 witness. -/
def c7Config : SendConfig :=
  { maxCertSize := 0, maxRetriesStoreCertificate := 1, dryRun := false }

/-- Witness for C7: the builder rejects concrete empty params and a concrete
bridge-less tick is a no-op. -/
theorem buildCertificate_empty_params_witness :
    buildCertificate c7BuildOracles c7Empty none false 1 =
      .error errNoBridgesAndClaims ∧
    sendCertificate c7SendOracles c7Config false false true false = .ok .noop :=
  ⟨buildCertificate_empty_params.1 c7BuildOracles c7Empty none false 1 (by decide),
   buildCertificate_empty_params.2 c7SendOracles c7Config false false true false
     5 none rfl rfl (by decide) rfl⟩

/-- Helper for C8: a successfully built certificate carries the height
returned by the height/LER resolution. -/
theorem buildCertificate_height (o : BuildOracles) (params : CertificateBuildParams)
    (ls : Option CertificateInfo) (fake : Bool) (net : Nat) (cert : Certificate) :
    buildCertificate o params ls fake net = .ok cert →
    ∃ p, getNextHeightAndPreviousLER o.lookupByHeight ls = .ok (cert.Height, p) := by
  intro h
  by_cases hemp : params.IsEmpty = true
  · simp [buildCertificate, hemp] at h
  · cases h9 : o.importedExits params.Claims with
    | error e => simp [buildCertificate, hemp, h9] at h
    | ok imp =>
      cases h10 : (if fake then o.fakeExitRoot
                   else o.exitRootByIndex params.MaxDepositCount) with
      | error e => simp [buildCertificate, hemp, h9, h10] at h
      | ok root =>
        cases h11 : getNextHeightAndPreviousLER o.lookupByHeight ls with
        | error e => simp [buildCertificate, hemp, h9, h10, h11] at h
        | ok hp =>
          simp [buildCertificate, hemp, h9, h10, h11] at h
          subst h
          exact ⟨hp.2, by simp [h11]⟩

/-- Helper for C8: the height/LER resolution on an InError prior returns the
prior's own height. -/
theorem getNextHeightAndPreviousLER_inError
    (lookup : Nat → Except String (Option CertificateInfo))
    (c : CertificateInfo) (h p : Nat) :
    c.Status = .InError →
    getNextHeightAndPreviousLER lookup (some c) = .ok (h, p) → h = c.Height := by
  intro hs hres
  simp only [getNextHeightAndPreviousLER, hs, CertStatus.IsClosed,
    CertStatus.IsSettled, CertStatus.IsInError, Bool.not_true, Bool.not_false] at hres
  cases hp2 : c.PreviousLocalExitRoot with
  | some q =>
    rw [hp2] at hres
    simp at hres
    omega
  | none =>
    rw [hp2] at hres
    by_cases h0 : c.Height = 0
    · rw [if_pos h0] at hres
      simp at hres
      omega
    · rw [if_neg h0] at hres
      cases hl : lookup (c.Height - 1) with
      | error e => rw [hl] at hres; simp at hres
      | ok od =>
        rw [hl] at hres
        cases od with
        | none => simp at hres
        | some d =>
          cases hd : d.Status with
          | Settled => simp [hd] at hres; omega
          | Pending => simp [hd] at hres
          | InError => simp [hd] at hres

/-- Helper for C8: the retry count computed from the last sent certificate. -/
theorem getLastSentBlockAndRetryCount_snd (ls : Option CertificateInfo) :
    (getLastSentBlockAndRetryCount ls).2 =
      (match ls with
       | some c => if c.Status = .InError then c.RetryCount + 1 else 0
       | none => 0) := by
  cases ls with
  | none => rfl
  | some c =>
    by_cases h : c.Status = .InError <;> simp [getLastSentBlockAndRetryCount, h]

/-- C8: when sendCertificate persists a CertificateInfo, its RetryCount is
the prior's RetryCount+1 when the last sent certificate is InError and 0
otherwise (no prior, or a prior in another status); and an InError retry
reuses the prior's height. -/
theorem sendCertificate_retry_count :
    ∀ (o : SendOracles) (cfg : SendConfig)
      (emptyCert addFakeBridge storeCertificate singleCert : Bool)
      (ls : Option CertificateInfo) (sc1 : SignedCertificate)
      (info : CertificateInfo) (exited : Bool),
      o.lastSentCertificate = .ok ls →
      sendCertificate o cfg emptyCert addFakeBridge storeCertificate singleCert =
        .ok (.sent sc1 (some info) exited) →
      info.RetryCount =
        (match ls with
         | some c => if c.Status = .InError then c.RetryCount + 1 else 0
         | none => 0) ∧
      (∀ c, ls = some c → c.Status = .InError → info.Height = c.Height) := by
  intro o cfg emptyCert addFakeBridge storeCertificate singleCert ls sc1 info exited
    hls hsend
  cases h1 : o.lastProcessedBlock with
  | error e1 => simp [sendCertificate, h1] at hsend
  | ok lastB =>
    by_cases h3 : lastB ≤ (getLastSentBlockAndRetryCount ls).1
    · simp [sendCertificate, h1, hls, h3] at hsend
    · cases h4 : o.getBridges ((getLastSentBlockAndRetryCount ls).1 + 1) lastB with
      | error e4 => simp [sendCertificate, h1, hls, h3, h4] at hsend
      | ok bridges =>
        by_cases h5 : bridges.length = 0
        · simp [sendCertificate, h1, hls, h3, h4, h5] at hsend
        · cases h6 : o.getClaims ((getLastSentBlockAndRetryCount ls).1 + 1) lastB with
          | error e6 => simp [sendCertificate, h1, hls, h3, h4, h5, h6] at hsend
          | ok claims =>
            cases h7 : limitCertSize cfg.maxCertSize
                { FromBlock := (getLastSentBlockAndRetryCount ls).1 + 1,
                  ToBlock := lastB, Bridges := bridges, Claims := claims,
                  CreatedAt := o.now } with
            | err e7 => simp [sendCertificate, h1, hls, h3, h4, h5, h6, h7] at hsend
            | nilPanic => simp [sendCertificate, h1, hls, h3, h4, h5, h6, h7] at hsend
            | fuelOut => simp [sendCertificate, h1, hls, h3, h4, h5, h6, h7] at hsend
            | ok R =>
              cases h8 : buildCertificate o.build R ls addFakeBridge o.networkID with
              | error e8 =>
                simp [sendCertificate, h1, hls, h3, h4, h5, h6, h7, h8] at hsend
              | ok cert0 =>
                cases h9 : signCertificate o.sign
                    (if emptyCert = true then
                      { cert0 with BridgeExits := [], ImportedBridgeExits := [] }
                    else cert0) with
                | error e9 =>
                  simp [sendCertificate, h1, hls, h3, h4, h5, h6, h7, h8, h9] at hsend
                | ok sc2 =>
                  by_cases h10 : cfg.dryRun = true
                  · simp [sendCertificate, h1, hls, h3, h4, h5, h6, h7, h8, h9,
                      h10] at hsend
                  · cases h11 : o.sendToAgglayer sc2 with
                    | error e11 =>
                      simp [sendCertificate, h1, hls, h3, h4, h5, h6, h7, h8, h9,
                        h10, h11] at hsend
                    | ok certHash =>
                      by_cases h12 : storeCertificate = false
                      · simp [sendCertificate, h1, hls, h3, h4, h5, h6, h7, h8, h9,
                          h10, h11, h12] at hsend
                      · cases h13 : saveCertificateToStorage o.saveResults
                            cfg.maxRetriesStoreCertificate o.saveFuel with
                        | none =>
                          simp [sendCertificate, h1, hls, h3, h4, h5, h6, h7, h8,
                            h9, h10, h11, h12, h13] at hsend
                        | some bc =>
                          cases bc with
                          | mk b cnt =>
                            cases b with
                            | false =>
                              simp [sendCertificate, h1, hls, h3, h4, h5, h6, h7,
                                h8, h9, h10, h11, h12, h13] at hsend
                            | true =>
                              simp [sendCertificate, h1, hls, h3, h4, h5, h6,
                                h7, h8, h9, h10, h11, h12, h13] at hsend
                              obtain ⟨hsc, hinfo, hex⟩ := hsend
                              subst hinfo
                              have hpres : (if emptyCert = true then { cert0 with BridgeExits := ([] : List Nat), ImportedBridgeExits := ([] : List Nat) } else cert0).Height = cert0.Height := by
                                by_cases he : emptyCert = true <;> simp [he]
                              constructor
                              · exact getLastSentBlockAndRetryCount_snd ls
                              · intro c hc hstat
                                obtain ⟨p, hp⟩ := buildCertificate_height o.build R ls
                                  addFakeBridge o.networkID cert0 h8
                                have hh : cert0.Height = c.Height := by
                                  subst hc
                                  exact getNextHeightAndPreviousLER_inError
                                    o.build.lookupByHeight c cert0.Height p hstat hp
                                exact hpres.trans hh

/-- Last sent certificate for the C8 witness: InError at height 3 with
RetryCount 2 and a recorded previous LER. -/
def c8Last : CertificateInfo :=
  { Height := 3, RetryCount := 2, CertificateID := 9, NewLocalExitRoot := 11,
    PreviousLocalExitRoot := some 7, FromBlock := 4, ToBlock := 6,
    Status := .InError, CreatedAt := 0, UpdatedAt := 0, SignedCertificate := "" }

/-- Build oracles for the C8 witness. -/
def c8BuildOracles : BuildOracles :=
  { importedExits := fun _ => .ok [], exitRootByIndex := fun _ => .ok 0,
    fakeExitRoot := .ok 0, bridgeExits := fun _ => [], fakeBridgeExit := 0,
    lookupByHeight := fun _ => .ok none }

/-- Send oracles for the C8 witness: one bridge in the retried range, a
65-byte signature, a successful submission and a successful first save. -/
def c8Oracles : SendOracles :=
  { build := c8BuildOracles, lastProcessedBlock := .ok 10,
    lastSentCertificate := .ok (some c8Last),
    getBridges := fun _ _ => .ok [{ BlockNum := 4, DepositCount := 0 }],
    getClaims := fun _ _ => .ok [], sign := fun _ => .ok (List.replicate 65 0),
    sendToAgglayer := fun _ => .ok 42, saveResults := fun _ => true,
    saveFuel := 2, networkID := 1, now := 0 }

/-- Config for the C8 witness: governor disabled, one save attempt. -/
def c8Config : SendConfig :=
  { maxCertSize := 0, maxRetriesStoreCertificate := 1, dryRun := false }

/-- The certificate the C8 witness run builds. -/
def c8Cert : Certificate :=
  { NetworkID := 1, PrevLocalExitRoot := 7, NewLocalExitRoot := 0,
    BridgeExits := [], ImportedBridgeExits := [], Height := 3,
    Metadata := { Version := 1, FromBlock := 4, Offset := 6, CreatedAt := 0,
                  ToBlock := 0 } }

/-- The signed certificate the C8 witness run produces. -/
def c8Signed : SignedCertificate :=
  { Certificate := c8Cert, Signature := { R := 0, S := 0, OddParity := false } }

/-- The CertificateInfo the C8 witness run persists. -/
def c8Info : CertificateInfo :=
  { Height := 3, RetryCount := 3, CertificateID := 42, NewLocalExitRoot := 0,
    PreviousLocalExitRoot := some 7, FromBlock := 4, ToBlock := 10,
    Status := .Pending, CreatedAt := 0, UpdatedAt := 0, SignedCertificate := "raw" }

/-- Witness for C8: a concrete resubmission after an InError prior with
RetryCount 2 persists RetryCount 3 at the same height 3. -/
theorem sendCertificate_retry_count_witness :
    sendCertificate c8Oracles c8Config false false true false =
      .ok (.sent c8Signed (some c8Info) false) ∧
    c8Info.RetryCount =
      (match (some c8Last : Option CertificateInfo) with
       | some c => if c.Status = .InError then c.RetryCount + 1 else 0
       | none => 0) ∧
    (∀ c, (some c8Last : Option CertificateInfo) = some c →
      c.Status = .InError → c8Info.Height = c.Height) :=
  have hrun : sendCertificate c8Oracles c8Config false false true false =
      .ok (.sent c8Signed (some c8Info) false) := by decide
  ⟨hrun, sendCertificate_retry_count c8Oracles c8Config false false true false
    (some c8Last) c8Signed c8Info false rfl hrun⟩

/-- Helper for C3: the polling loop reports no pending certificates exactly
when the accumulator was clear and every certificate in the list polls to a
closed status with no errors. -/
theorem checkPendingLoop_false_iff (co : CheckOracles) (now : Nat) :
    ∀ (l : List CertificateInfo) (acc : Bool),
      checkPendingLoop co now l acc = false ↔
        (acc = false ∧ ∀ c, c ∈ l → certPollClosed co now c = true) := by
  intro l
  induction l with
  | nil => intro acc; simp [checkPendingLoop]
  | cons c rest ih =>
    intro acc
    cases hh : co.getHeader c.CertificateID with
    | error e =>
      simp [checkPendingLoop, hh, certPollClosed]
    | ok h =>
      cases hu : updateCertificateStatus co.update now c h with
      | error e =>
        simp [checkPendingLoop, hh, hu, certPollClosed]
      | ok c2 =>
        simp only [checkPendingLoop, hh, hu]
        rw [ih (acc || !c2.IsClosed)]
        simp [certPollClosed, hh, hu, Bool.or_eq_false_iff]
        constructor
        · rintro ⟨⟨hacc, hcl⟩, hrest⟩
          exact ⟨hacc, by simpa using hcl, hrest⟩
        · rintro ⟨hacc, hcl, hrest⟩
          exact ⟨⟨hacc, by simpa using hcl⟩, hrest⟩

/-- C3: the submission tick builds only when the pending-status check
returned false; that check returns false exactly when the status query
succeeded and every returned certificate was polled without error and left in
a closed status; a failed status query, header poll or status write makes the
check report pending (never permission to build); a successful status update
leaves the local record with the remote header's status; and when the check
reports pending the tick skips building. -/
theorem checkPendingCertificatesStatus_gate :
    (∀ (co : CheckOracles) (now : Nat),
      checkPendingCertificatesStatus co now = false ↔
        ∃ l, co.getPending = .ok l ∧ ∀ c, c ∈ l → certPollClosed co now c = true) ∧
    (∀ (co : CheckOracles) (now : Nat) (e : String),
      co.getPending = .error e → checkPendingCertificatesStatus co now = true) ∧
    (∀ (co : CheckOracles) (now : Nat) (l : List CertificateInfo)
        (c : CertificateInfo),
      co.getPending = .ok l → c ∈ l → certPollClosed co now c = false →
      checkPendingCertificatesStatus co now = true) ∧
    (∀ (co : CheckOracles) (now : Nat) (c : CertificateInfo) (h : CertHeader)
        (c2 : CertificateInfo),
      updateCertificateStatus co.update now c h = .ok c2 → c2.Status = h.Status) ∧
    (∀ (co : CheckOracles) (now : Nat) (o : SendOracles) (cfg : SendConfig)
        (emptyCert addFakeBridge storeCertificate singleCert : Bool)
        (r : GoResult SendOutcome),
      sendCertificatesTick co now o cfg emptyCert addFakeBridge storeCertificate
        singleCert = some r →
      checkPendingCertificatesStatus co now = false ∧
      r = sendCertificate o cfg emptyCert addFakeBridge storeCertificate singleCert) ∧
    (∀ (co : CheckOracles) (now : Nat) (o : SendOracles) (cfg : SendConfig)
        (emptyCert addFakeBridge storeCertificate singleCert : Bool),
      checkPendingCertificatesStatus co now = true →
      sendCertificatesTick co now o cfg emptyCert addFakeBridge storeCertificate
        singleCert = none) := by
  have hgate : ∀ (co : CheckOracles) (now : Nat),
      checkPendingCertificatesStatus co now = false ↔
        ∃ l, co.getPending = .ok l ∧ ∀ c, c ∈ l → certPollClosed co now c = true := by
    intro co now
    cases hq : co.getPending with
    | error e => simp [checkPendingCertificatesStatus, hq]
    | ok l =>
      simp only [checkPendingCertificatesStatus, hq]
      rw [checkPendingLoop_false_iff co now l false]
      simp
  refine ⟨hgate, ?_, ?_, ?_, ?_, ?_⟩
  · intro co now e hq
    simp [checkPendingCertificatesStatus, hq]
  · intro co now l c hq hc hpoll
    cases hb : checkPendingCertificatesStatus co now with
    | true => rfl
    | false =>
      exfalso
      obtain ⟨l2, hl2, hall⟩ := (hgate co now).mp hb
      rw [hq] at hl2
      cases hl2
      have := hall c hc
      rw [hpoll] at this
      exact Bool.false_ne_true this
  · intro co now c h c2 hupd
    by_cases heq : c.Status = h.Status
    · simp only [updateCertificateStatus, heq, if_pos] at hupd
      cases hupd
      exact heq
    · simp only [updateCertificateStatus, heq, if_neg, ite_false] at hupd
      cases hu2 : co.update { c with Status := h.Status, UpdatedAt := now } with
      | error e => rw [hu2] at hupd; simp at hupd
      | ok u =>
        rw [hu2] at hupd
        simp at hupd
        rw [← hupd]
  · intro co now o cfg emptyCert addFakeBridge storeCertificate singleCert r htick
    cases hb : checkPendingCertificatesStatus co now with
    | true => simp [sendCertificatesTick, hb] at htick
    | false =>
      simp [sendCertificatesTick, hb] at htick
      exact ⟨rfl, htick.symm⟩
  · intro co now o cfg emptyCert addFakeBridge storeCertificate singleCert hb
    simp [sendCertificatesTick, hb]

/-- Check oracles for the C3 witness: no pending certificates stored. -/
def c3Oracles : CheckOracles :=
  { getPending := .ok [], getHeader := fun _ => .error "na",
    update := fun _ => .ok () }

/-- Send oracles for the C3 witness: nothing new to send. -/
def c3Send : SendOracles :=
  { build := { importedExits := fun _ => .ok [], exitRootByIndex := fun _ => .ok 0,
               fakeExitRoot := .ok 0, bridgeExits := fun _ => [],
               fakeBridgeExit := 0, lookupByHeight := fun _ => .ok none },
    lastProcessedBlock := .ok 0, lastSentCertificate := .ok none,
    getBridges := fun _ _ => .ok [], getClaims := fun _ _ => .ok [],
    sign := fun _ => .error "na", sendToAgglayer := fun _ => .error "na",
    saveResults := fun _ => true, saveFuel := 1, networkID := 0, now := 0 }

/-- Config for the C3 witness. -/
def c3Cfg : SendConfig :=
  { maxCertSize := 0, maxRetriesStoreCertificate := 1, dryRun := false }

/-- Witness for C3: with an empty pending set the check reports no pending
certificates and the tick's build attempt is exactly one sendCertificate
call. -/
theorem checkPendingCertificatesStatus_gate_witness :
    checkPendingCertificatesStatus c3Oracles 0 = false ∧
    GoResult.ok SendOutcome.noop =
      sendCertificate c3Send c3Cfg false false false false :=
  checkPendingCertificatesStatus_gate.2.2.2.2.1 c3Oracles 0 c3Send c3Cfg
    false false false false (GoResult.ok SendOutcome.noop) (by decide)

/-- Prior certificate for the C1 witness: InError at height 2 with no
recorded previous LER. -/
def c1Prior : CertificateInfo :=
  { Height := 2, RetryCount := 0, CertificateID := 5, NewLocalExitRoot := 6,
    PreviousLocalExitRoot := none, FromBlock := 1, ToBlock := 2,
    Status := .InError, CreatedAt := 0, UpdatedAt := 0, SignedCertificate := "" }

/-- Witness for C1 at a concrete lookup and prior certificate. -/
theorem getNextHeightAndPreviousLER_matches_spec_witness :
    exceptToOption (getNextHeightAndPreviousLER (fun _ => .ok none) (some c1Prior)) =
      exceptToOption (heightLERResolutionSpec (fun _ => .ok none) (some c1Prior)) :=
  getNextHeightAndPreviousLER_matches_spec (fun _ => .ok none) (some c1Prior)

/-- Witness for C2 at a concrete inconsistent pair: a local record with no
remote header is an error. -/
theorem checkLastCertificateFromAgglayer_error_cases_witness :
    isOkE (checkLastCertificateFromAgglayer 0 [c2Local] (.ok none)) = false :=
  (checkLastCertificateFromAgglayer_error_cases.1 0 [c2Local] none).mpr
    (Or.inl ⟨c2Local, rfl, rfl⟩)

/-- Remote header for the C5 witness. -/
def c5Header : CertHeader :=
  { Height := 5, CertificateID := 3, NewLocalExitRoot := 4,
    PreviousLocalExitRoot := some 2, Status := .Settled,
    Metadata := { Version := 1, FromBlock := 10, Offset := 4, CreatedAt := 99,
                  ToBlock := 0 } }

/-- Witness for C5 at a concrete header at height 5 over the empty store. -/
theorem updateLocalStorageWithAggLayerCert_adopts_witness :
    (∃ ci, updateLocalStorageWithAggLayerCert 0 [] c5Header = (ci, [] ++ [ci]) ∧
      ci.Height = c5Header.Height ∧
      ci.CertificateID = c5Header.CertificateID ∧
      ci.NewLocalExitRoot = c5Header.NewLocalExitRoot ∧
      ci.Status = c5Header.Status ∧
      ci.PreviousLocalExitRoot = c5Header.PreviousLocalExitRoot ∧
      ci.FromBlock = c5Header.Metadata.FromBlock ∧
      ci.ToBlock = (if c5Header.Metadata.Version < 1 then c5Header.Metadata.ToBlock
                    else c5Header.Metadata.FromBlock + c5Header.Metadata.Offset) ∧
      ci.CreatedAt = (if c5Header.Metadata.Version < 1 then 0
                      else c5Header.Metadata.CreatedAt)) ∧
    checkLastCertificateFromAgglayer 0 [] (.ok (some c5Header)) =
      .ok [certInfoFromHeader 0 c5Header] :=
  updateLocalStorageWithAggLayerCert_adopts 0 [] c5Header

end AggSpammer
